import Mathlib

/-!
# Verification of `img_extract.py`

A shallow embedding of the image-extraction program `src/img_extract.py`:
the snapshot extractor (`extract_images_from_current_state`), the scroll
harvester loop (`get_image_urls_from_page`), the SVG classifier
(`is_svg_image`), the per-URL fetch procedure (`download_image`) and the
coordinator's download loop (`main`).

Library collaborators used by the program are embedded as well:

* `urllib.parse.urljoin` / `urlparse` / `urlunparse` (CPython algorithm,
  RFC 3986 relative resolution).  The WHATWG control-character
  sanitisation and the IPv6-bracket validation that raise in CPython are
  omitted: the model agrees with CPython on every URL string free of
  ASCII control characters and brackets, which covers all inputs used in
  the theorems below.
* `os.path.splitext` (POSIX flavour) and `hashlib.md5` (full algorithm).
* the two regular expressions of the extractor, whose deterministic
  backtracking behaviour is modelled exactly.

External effects (HTTP requests, the filesystem, the rendered page) are
passed as explicit environments: `HttpEnv` gives each URL its HEAD and
GET responses, the filesystem is an existence predicate `String → Bool`,
and `PageBeh` gives the per-step DOM observations of the scroll loop.
-/

/-! ## Character and string helpers (Python `str` semantics, ASCII) -/

/-- Python `str.lower` restricted to ASCII letters. -/
def lowerChar (c : Char) : Char :=
  if 'A' ≤ c ∧ c ≤ 'Z' then Char.ofNat (c.toNat + 32) else c

/-- Python `s.lower()` (ASCII model). -/
def pyLower (s : String) : String := ⟨s.data.map lowerChar⟩

/-- Boolean list-prefix test: `listIsPre p l` is true iff `p` is a prefix of `l`. -/
def listIsPre : List Char → List Char → Bool
  | [], _ => true
  | _ :: _, [] => false
  | a :: as, b :: bs => a = b && listIsPre as bs

/-- Boolean substring test on character lists: true iff `pat` occurs inside `l`. -/
def listHasSub (pat : List Char) : List Char → Bool
  | [] => pat.isEmpty
  | c :: rest => listIsPre pat (c :: rest) || listHasSub pat rest

/-- Python `s.startswith(p)`. -/
def strStartsWith (s p : String) : Bool := listIsPre p.data s.data

/-- Python `s.endswith(p)`. -/
def strEndsWith (s p : String) : Bool := listIsPre p.data.reverse s.data.reverse

/-- Python `p in s` substring containment. -/
def strContains (s p : String) : Bool := listHasSub p.data s.data

/-- Index of the first character satisfying `p` (Python `str.find` for a char). -/
def listFindIdx (p : Char → Bool) : List Char → Option Nat
  | [] => none
  | c :: rest => if p c then some 0 else (listFindIdx p rest).map (· + 1)

/-- Python `s.split(sep)` on a single separator character (never returns `[]`). -/
def splitOnChar (sep : Char) : List Char → List (List Char)
  | [] => [[]]
  | c :: rest =>
    if c = sep then [] :: splitOnChar sep rest
    else
      match splitOnChar sep rest with
      | [] => [[c]]
      | g :: gs => (c :: g) :: gs

/-- Python `sep.join` for a single-character separator. -/
def joinWith (sep : Char) : List (List Char) → List Char
  | [] => []
  | [g] => g
  | g :: gs => g ++ sep :: joinWith sep gs

/-- The single-quote character, `chr 39`. -/
def squote : Char := Char.ofNat 39

/-! ## `urllib.parse` model (CPython algorithm) -/

/-- CPython `uses_relative`. -/
def usesRelative : List String :=
  ["", "ftp", "http", "gopher", "nntp", "imap", "wais", "file", "https",
   "shttp", "mms", "prospero", "rtsp", "rtsps", "rtspu", "sftp", "svn",
   "svn+ssh", "ws", "wss"]

/-- CPython `uses_netloc`. -/
def usesNetloc : List String :=
  ["", "ftp", "http", "gopher", "nntp", "telnet", "imap", "wais", "file",
   "mms", "https", "shttp", "snews", "prospero", "rtsp", "rtsps", "rtspu",
   "rsync", "svn", "svn+ssh", "sftp", "nfs", "git", "git+ssh", "ws", "wss"]

/-- CPython `uses_params`. -/
def usesParams : List String :=
  ["", "ftp", "hdl", "prospero", "http", "imap", "https", "shttp", "rtsp",
   "rtsps", "rtspu", "sip", "sips", "mms", "sftp", "tel"]

/-- A character allowed in a URL scheme (`scheme_chars`). -/
def schemeChar (c : Char) : Bool :=
  c.isAlpha || c.isDigit || c = '+' || c = '-' || c = '.'

/-- Result of `urlsplit`: `(scheme, netloc, path, query, fragment)`. -/
structure UrlSplitParts where
  scheme : String
  netloc : String
  path : String
  query : String
  fragment : String
deriving DecidableEq

/-- Result of `urlparse`: `urlsplit` plus the `params` component. -/
structure UrlParts where
  scheme : String
  netloc : String
  path : String
  params : String
  query : String
  fragment : String
deriving DecidableEq

/-- CPython `urlsplit(url, defscheme)` (with `allow_fragments=True`).
Control-character stripping is omitted, see the module comment. -/
def urlsplitM (url defscheme : String) : UrlSplitParts :=
  let cs := url.data
  let schRest : String × List Char :=
    match listFindIdx (· = ':') cs with
    | some i =>
      if 0 < i ∧ (cs.headD ' ').isAlpha ∧ (cs.take i).all schemeChar then
        (⟨(cs.take i).map lowerChar⟩, cs.drop (i + 1))
      else (defscheme, cs)
    | none => (defscheme, cs)
  let sch := schRest.1
  let rest := schRest.2
  let nlRest : List Char × List Char :=
    if listIsPre ['/', '/'] rest then
      let after := rest.drop 2
      let nl := after.takeWhile (fun c => ¬ (c = '/' ∨ c = '?' ∨ c = '#'))
      (nl, after.drop nl.length)
    else ([], rest)
  let netloc := nlRest.1
  let rest2 := nlRest.2
  let pqf : List Char × List Char :=
    match listFindIdx (· = '#') rest2 with
    | some i => (rest2.take i, rest2.drop (i + 1))
    | none => (rest2, [])
  let frag := pqf.2
  let pq : List Char × List Char :=
    match listFindIdx (· = '?') pqf.1 with
    | some i => ((pqf.1).take i, (pqf.1).drop (i + 1))
    | none => (pqf.1, [])
  ⟨sch, ⟨netloc⟩, ⟨pq.1⟩, ⟨pq.2⟩, ⟨frag⟩⟩

/-- CPython `_splitparams`: split `params` off the last path segment. -/
def splitparamsM (p : List Char) : List Char × List Char :=
  let search : List Char :=
    if p.contains '/' then (p.reverse.takeWhile (· ≠ '/')).reverse else p
  match listFindIdx (· = ';') search with
  | some i =>
    let cut := p.length - search.length + i
    (p.take cut, p.drop (cut + 1))
  | none => (p, [])

/-- CPython `urlparse(url, defscheme)`. -/
def urlparseM (url defscheme : String) : UrlParts :=
  let s := urlsplitM url defscheme
  if usesParams.contains s.scheme ∧ s.path.data.contains ';' then
    let pp := splitparamsM s.path.data
    ⟨s.scheme, s.netloc, ⟨pp.1⟩, ⟨pp.2⟩, s.query, s.fragment⟩
  else
    ⟨s.scheme, s.netloc, s.path, "", s.query, s.fragment⟩

/-- CPython `urlunsplit` (Python 3.11 condition for re-adding `//`). -/
def urlunsplitM (scheme netloc u query fragment : String) : String :=
  let u1 : List Char :=
    if netloc ≠ "" ∨ (scheme ≠ "" ∧ usesNetloc.contains scheme ∧ ¬ listIsPre ['/', '/'] u.data) then
      let u' := if u ≠ "" ∧ ¬ listIsPre ['/'] u.data then '/' :: u.data else u.data
      '/' :: '/' :: (netloc.data ++ u')
    else u.data
  let u2 := if scheme ≠ "" then scheme.data ++ ':' :: u1 else u1
  let u3 := if query ≠ "" then u2 ++ '?' :: query.data else u2
  let u4 := if fragment ≠ "" then u3 ++ '#' :: fragment.data else u3
  ⟨u4⟩

/-- CPython `urlunparse`. -/
def urlunparseM (p : UrlParts) : String :=
  urlunsplitM p.scheme p.netloc
    (if p.params ≠ "" then p.path ++ ";" ++ p.params else p.path) p.query p.fragment

/-- Keep the first and last element, drop empty strings in between
(CPython `segments[1:-1] = filter(None, segments[1:-1])`). -/
def filterInterior : List String → List String
  | [] => []
  | [x] => [x]
  | x :: rest => x :: ((rest.dropLast.filter (· != "")) ++ [rest.getLastD ""])

/-- RFC 3986 dot-segment removal as performed by CPython `urljoin`. -/
def resolveDots (segments : List String) : List String :=
  let res := segments.foldl
    (fun acc seg =>
      if seg = ".." then acc.dropLast
      else if seg = "." then acc
      else acc ++ [seg]) []
  if segments.getLastD "" = "." ∨ segments.getLastD "" = ".." then res ++ [""] else res

/-- CPython `urljoin(base, url)`. -/
def urljoinM (base url : String) : String :=
  if base = "" then url
  else if url = "" then base
  else
    let b := urlparseM base ""
    let u := urlparseM url b.scheme
    if u.scheme ≠ b.scheme ∨ ¬ usesRelative.contains u.scheme then url
    else if usesNetloc.contains u.scheme ∧ u.netloc ≠ "" then
      urlunparseM ⟨u.scheme, u.netloc, u.path, u.params, u.query, u.fragment⟩
    else
      let netloc := if usesNetloc.contains u.scheme then b.netloc else u.netloc
      if u.path = "" ∧ u.params = "" then
        urlunparseM ⟨u.scheme, netloc, b.path, b.params,
          (if u.query = "" then b.query else u.query), u.fragment⟩
      else
        let baseParts0 := (splitOnChar '/' b.path.data).map (fun g => (⟨g⟩ : String))
        let baseParts :=
          if baseParts0.getLastD "" ≠ "" then baseParts0.dropLast else baseParts0
        let segments :=
          if listIsPre ['/'] u.path.data then
            (splitOnChar '/' u.path.data).map (fun g => (⟨g⟩ : String))
          else
            filterInterior
              (baseParts ++ (splitOnChar '/' u.path.data).map (fun g => (⟨g⟩ : String)))
        let resolved := resolveDots segments
        let joined := joinWith '/' (resolved.map (fun s => s.data))
        let path : String := if joined = [] then "/" else ⟨joined⟩
        urlunparseM ⟨u.scheme, netloc, path, u.params, u.query, u.fragment⟩

/-! Regression checks of the `urllib` model against observed CPython 3.11 outputs. -/

theorem urljoin_check_abs_path : urljoinM "https://ex.com/" "/a.png" = "https://ex.com/a.png" := by decide

theorem urljoin_check_rel : urljoinM "http://e.com/a/b.html" "../c.png" = "http://e.com/c.png" := by decide

theorem urljoin_check_netloc : urljoinM "https://ex.com/" "//cdn.com/i.png" = "https://cdn.com/i.png" := by decide

theorem urljoin_check_noscheme_base : urljoinM "d/e/" "a" = "d/e/a" := by decide

theorem urljoin_check_noscheme_twice : urljoinM "d/e/" "d/e/a" = "d/e/d/e/a" := by decide

theorem urljoin_check_other_scheme : urljoinM "http://y/" "ftp://z/f" = "ftp://z/f" := by decide

theorem urljoin_check_query : urljoinM "https://ex.com/gal/" "img.png?v=2" = "https://ex.com/gal/img.png?v=2" := by decide

theorem urljoin_check_empty_path : urljoinM "http://e.com" "p.png" = "http://e.com/p.png" := by decide

theorem urljoin_check_params : urljoinM "http://y/a/b;p1" "c;p2" = "http://y/a/c;p2" := by decide

theorem urljoin_check_upper_scheme : urljoinM "http://y/" "HtTp://x/p" = "http://x/p" := by decide

theorem urlparse_check_path : (urlparseM "https://x.com/a.svg?x=1" "").path = "/a.svg" := by decide

/-! ## `os.path.splitext` and `hashlib.md5` -/

/-- The extension part of POSIX `os.path.splitext p` (including the dot, or
`""`): the suffix of the basename from its last dot, provided a non-dot
character precedes that dot within the basename. -/
def splitextExt (p : String) : String :=
  let base := (p.data.reverse.takeWhile (· ≠ '/')).reverse
  let afterDot := base.reverse.takeWhile (· ≠ '.')
  if afterDot.length = base.length then ""
  else
    let dotIdx := base.length - afterDot.length - 1
    if (base.take dotIdx).any (· ≠ '.') then ⟨base.drop dotIdx⟩ else ""

theorem splitext_check1 : splitextExt "/a/b.png" = ".png" := by decide
theorem splitext_check2 : splitextExt "/a/.bashrc" = "" := by decide
theorem splitext_check3 : splitextExt "/a/b.tar.gz" = ".gz" := by decide
theorem splitext_check4 : splitextExt "/a/..gz" = "" := by decide
theorem splitext_check5 : splitextExt "/a/b" = "" := by decide

/-- UTF-8 encoding of one character (Python `str.encode`). -/
def utf8Char (c : Char) : List Nat :=
  let n := c.toNat
  if n < 128 then [n]
  else if n < 2048 then [192 + n / 64, 128 + n % 64]
  else if n < 65536 then [224 + n / 4096, 128 + n / 64 % 64, 128 + n % 64]
  else [240 + n / 262144, 128 + n / 4096 % 64, 128 + n / 64 % 64, 128 + n % 64]

/-- UTF-8 bytes of a string (Python `s.encode()`). -/
def utf8Bytes (s : String) : List Nat := (s.data.map utf8Char).flatten

/-- The MD5 sine-derived constant table `K`. -/
def md5K : List Nat :=
  [3614090360, 3905402710, 606105819, 3250441966, 4118548399, 1200080426, 2821735955, 4249261313,
  1770035416, 2336552879, 4294925233, 2304563134, 1804603682, 4254626195, 2792965006, 1236535329,
  4129170786, 3225465664, 643717713, 3921069994, 3593408605, 38016083, 3634488961, 3889429448,
  568446438, 3275163606, 4107603335, 1163531501, 2850285829, 4243563512, 1735328473, 2368359562,
  4294588738, 2272392833, 1839030562, 4259657740, 2763975236, 1272893353, 4139469664, 3200236656,
  681279174, 3936430074, 3572445317, 76029189, 3654602809, 3873151461, 530742520, 3299628645,
  4096336452, 1126891415, 2878612391, 4237533241, 1700485571, 2399980690, 4293915773, 2240044497,
  1873313359, 4264355552, 2734768916, 1309151649, 4149444226, 3174756917, 718787259, 3951481745]

/-- The MD5 per-round left-rotation amounts. -/
def md5S : List Nat :=
  [7, 12, 17, 22, 7, 12, 17, 22, 7, 12, 17, 22, 7, 12, 17, 22,
   5, 9, 14, 20, 5, 9, 14, 20, 5, 9, 14, 20, 5, 9, 14, 20,
   4, 11, 16, 23, 4, 11, 16, 23, 4, 11, 16, 23, 4, 11, 16, 23,
   6, 10, 15, 21, 6, 10, 15, 21, 6, 10, 15, 21, 6, 10, 15, 21]

/-- 32-bit left rotation over `Nat % 2^32`. -/
def rotl32 (x c : Nat) : Nat :=
  ((x <<< c) % 4294967296) ||| (x >>> (32 - c))

/-- The MD5 round function `F/G/H/I` for step `i`. -/
def md5F (i b c d : Nat) : Nat :=
  if i < 16 then (b &&& c) ||| ((4294967295 - b) &&& d)
  else if i < 32 then (d &&& b) ||| ((4294967295 - d) &&& c)
  else if i < 48 then b ^^^ c ^^^ d
  else c ^^^ (b ||| (4294967295 - d))

/-- The MD5 message-word index for step `i`. -/
def md5G (i : Nat) : Nat :=
  if i < 16 then i
  else if i < 32 then (5 * i + 1) % 16
  else if i < 48 then (3 * i + 5) % 16
  else (7 * i) % 16

/-- Process one 64-byte chunk: `m j` is the `j`-th little-endian 32-bit word. -/
def md5Chunk (st : Nat × Nat × Nat × Nat) (m : Nat → Nat) : Nat × Nat × Nat × Nat :=
  let r := (List.range 64).foldl
    (fun (s : Nat × Nat × Nat × Nat) i =>
      let a := s.1; let b := s.2.1; let c := s.2.2.1; let d := s.2.2.2
      let f := (a + md5F i b c d + md5K.getD i 0 + m (md5G i)) % 4294967296
      (d, (b + rotl32 f (md5S.getD i 0)) % 4294967296, b, c))
    st
  ((st.1 + r.1) % 4294967296, (st.2.1 + r.2.1) % 4294967296,
   (st.2.2.1 + r.2.2.1) % 4294967296, (st.2.2.2 + r.2.2.2) % 4294967296)

/-- Little-endian 4-byte encoding of a 32-bit value. -/
def le32 (x : Nat) : List Nat :=
  [x % 256, x / 256 % 256, x / 65536 % 256, x / 16777216 % 256]

/-- MD5 padding: `0x80`, zeros to 56 mod 64, then the 64-bit bit length. -/
def md5Pad (msg : List Nat) : List Nat :=
  let z := (120 - (msg.length + 1) % 64) % 64
  msg ++ 128 :: List.replicate z 0 ++
    le32 (msg.length * 8 % 4294967296) ++ le32 (msg.length * 8 / 4294967296 % 4294967296)

/-- The `j`-th little-endian word of a 64-byte chunk. -/
def chunkWord (chunk : List Nat) (j : Nat) : Nat :=
  chunk.getD (4 * j) 0 + 256 * chunk.getD (4 * j + 1) 0 +
    65536 * chunk.getD (4 * j + 2) 0 + 16777216 * chunk.getD (4 * j + 3) 0

/-- Fold `md5Chunk` over the 64-byte chunks (fuel-structural recursion;
the fuel passed is the byte count, an upper bound on the chunk count). -/
def md5Chunks : Nat → (Nat × Nat × Nat × Nat) → List Nat → Nat × Nat × Nat × Nat
  | 0, st, _ => st
  | _ + 1, st, [] => st
  | fuel + 1, st, bytes =>
    md5Chunks fuel (md5Chunk st (chunkWord (bytes.take 64))) (bytes.drop 64)

/-- Hex digit character (lowercase). -/
def hexChar (n : Nat) : Char :=
  if n < 10 then Char.ofNat (48 + n) else Char.ofNat (87 + n)

/-- `hashlib.md5(s.encode()).hexdigest()`. -/
def md5hex (s : String) : String :=
  let msg := md5Pad (utf8Bytes s)
  let st := md5Chunks msg.length (1732584193, 4023233417, 2562383102, 271733878) msg
  ⟨((le32 st.1 ++ le32 st.2.1 ++ le32 st.2.2.1 ++ le32 st.2.2.2).map
    (fun b => [hexChar (b / 16), hexChar (b % 16)])).flatten⟩

set_option maxRecDepth 40000

theorem md5_check_empty : md5hex "" = "d41d8cd98f00b204e9800998ecf8427e" := by decide

theorem md5_check_url : md5hex "http://e.com/a.png" = "5583ff85eb03360fff6bb97892a80569" := by decide

/-! ## The classifier and per-URL fetch procedure (`is_svg_image`, `download_image`) -/

/-- `is_svg_image(url, content_type)`: URL ends in `.svg`, or contains
`svg` case-insensitively, or a truthy content-type contains `svg`. -/
def isSvgImage (url : String) (contentType : Option String) : Bool :=
  if strEndsWith (pyLower url) ".svg" then true
  else if strContains (pyLower url) "svg" then true
  else
    match contentType with
    | some ct => ct ≠ "" && strContains (pyLower ct) "svg"
    | none => false

/-- The URL-resolution step of `download_image` (lines 194-196): absolute
`http(s)`/`data` references pass through, all others are joined to the base. -/
def resolveUrl (url baseUrl : String) : String :=
  if strStartsWith url "http://" ∨ strStartsWith url "https://" ∨ strStartsWith url "data:" then url
  else urljoinM baseUrl url

/-- The content-addressed filename of `download_image`: md5 hex of the
(resolved) URL string plus the extension of the URL path, `.jpg` if none. -/
def imageFilename (url : String) : String :=
  let ext := splitextExt (urlparseM url "").path
  md5hex url ++ (if ext = "" then ".jpg" else ext)

/-- `os.path.join(save_dir, filename)` for a relative filename and a
directory without a trailing slash (the program uses `save_dir = "images"`). -/
def savePath (saveDir url : String) : String := saveDir ++ "/" ++ imageFilename url

/-- A network call issued by `download_image` (issued, not necessarily
successful). -/
inductive NetCall where
  | head : String → NetCall
  | get : String → NetCall
deriving DecidableEq

/-- Which return point of `download_image` produced the record.  Every
constructor corresponds to one `return` (or fall-through) of the source. -/
inductive Outcome where
  | dataSkip      -- `return None` for data URLs
  | svgUrlSkip    -- `return None` after the URL-shape SVG check
  | svgProbeSkip  -- `return None` after the HEAD content-type check
  | dupOnDisk     -- fall-through `None` when the file already exists
  | fetchFailed   -- `return None` from the exception handler
  | svgFinalSkip  -- `return None` after the GET content-type check
  | saved         -- `return filepath`
deriving DecidableEq

/-- The HTTP collaborator: `headCt url` is the content-type of a successful
HEAD probe (`none` when the probe raises; a missing header is `some ""`),
`getResp url` is the content-type and body of a GET that succeeded with a
2xx status (`none` when the request raises or `raise_for_status` fires). -/
structure HttpEnv where
  headCt : String → Option String
  getResp : String → Option (String × List Nat)

/-- Result of one `download_image` call: the Python return value, the
return point taken, the network calls issued, and the files written. -/
structure DLResult where
  ret : Option String
  outcome : Outcome
  calls : List NetCall
  written : List (String × List Nat)
deriving DecidableEq

/-- The HEAD-probe reclassification of `download_image`: true when the
probe succeeded and its content-type makes `is_svg_image` fire. -/
def probeSaysSvg (net : HttpEnv) (u : String) : Bool :=
  match net.headCt u with
  | some ct => isSvgImage u (some ct)
  | none => false

/-- `download_image(url, base_url, save_dir)` against filesystem `fs` and
network `net`, translated branch by branch from the source. -/
def downloadImage (url baseUrl saveDir : String) (fs : String → Bool) (net : HttpEnv) :
    DLResult :=
  let u := resolveUrl url baseUrl
  if strStartsWith u "data:" then ⟨none, .dataSkip, [], []⟩
  else if isSvgImage u none then ⟨none, .svgUrlSkip, [], []⟩
  else
    if probeSaysSvg net u then ⟨none, .svgProbeSkip, [.head u], []⟩
    else
      let fp := savePath saveDir u
      if fs fp then ⟨none, .dupOnDisk, [.head u], []⟩
      else
        match net.getResp u with
        | none => ⟨none, .fetchFailed, [.head u, .get u], []⟩
        | some (ct, body) =>
          if isSvgImage u (some ct) then ⟨none, .svgFinalSkip, [.head u, .get u], []⟩
          else ⟨some fp, .saved, [.head u, .get u], [(fp, body)]⟩

/-- Add the written files to the filesystem. -/
def applyWrites (fs : String → Bool) (ws : List (String × List Nat)) : String → Bool :=
  fun p => fs p || ws.any (fun w => w.1 == p)

/-- The download loop of `main`: one `download_image` per URL in order,
threading the filesystem. Returns the records and the final filesystem. -/
def fetchAll (urls : List String) (baseUrl saveDir : String) (fs : String → Bool)
    (net : HttpEnv) : List DLResult × (String → Bool) :=
  match urls with
  | [] => ([], fs)
  | u :: rest =>
    let r := downloadImage u baseUrl saveDir fs net
    let p := fetchAll rest baseUrl saveDir (applyWrites fs r.written) net
    (r :: p.1, p.2)

/-- Python truthiness of an `Optional[str]` (used by `main`'s
`if download_image(...)` counter). -/
def pyTruthy : Option String → Bool
  | some s => s ≠ ""
  | none => false

/-- `main`'s `successful_downloads` counter over a batch of records. -/
def countSuccess (rs : List DLResult) : Nat :=
  (rs.filter (fun r => pyTruthy r.ret)).length

/-! ## The snapshot extractor (`extract_images_from_current_state`) -/

/-- Python regex `\s` on ASCII. -/
def pySpace (c : Char) : Bool :=
  c = ' ' ∨ c = '\t' ∨ c = '\n' ∨ c = '\r' ∨ c.toNat = 11 ∨ c.toNat = 12

/-- Consume a `\d+[wx]` descriptor if one matches at the head (maximal
digits then `w` or `x`; the regex admits no other match here). -/
def descrDrop (cs : List Char) : List Char :=
  let ds := cs.takeWhile Char.isDigit
  if ds.isEmpty then cs
  else
    match cs.drop ds.length with
    | c :: r => if c = 'w' ∨ c = 'x' then r else cs
    | [] => cs

/-- One findall scan of the srcset regex `([^\s]+)\s*(?:\d+[wx])?,?`:
skip whitespace, capture a maximal non-whitespace token, then consume
whitespace, an optional descriptor and an optional comma.  Fuel-structural;
every step consumes at least one character so `length` fuel is exact. -/
def srcsetGo : Nat → List Char → List String
  | 0, _ => []
  | _ + 1, [] => []
  | fuel + 1, c :: rest =>
    if pySpace c then srcsetGo fuel rest
    else
      let tok := (c :: rest).takeWhile (fun x => ¬ pySpace x)
      let r1 := (c :: rest).drop tok.length
      let r2 := r1.dropWhile pySpace
      let r3 := descrDrop r2
      let r4 := match r3 with
        | ',' :: r => r
        | r => r
      (⟨tok⟩ : String) :: srcsetGo fuel r4

/-- `re.findall(r'([^\s]+)\s*(?:\d+[wx])?,?', srcset)`. -/
def findallSrcset (s : String) : List String := srcsetGo s.data.length s.data

theorem srcset_check1 : findallSrcset "/b.png 1x, /c.png 2x" = ["/b.png", "/c.png"] := by decide

theorem srcset_check2 : findallSrcset "a.png, b.png" = ["a.png,", "b.png"] := by decide

theorem srcset_check3 : findallSrcset "a.png 2, b.png" = ["a.png", "2,", "b.png"] := by decide

/-- A character the background-url capture group `[^"\')]+` accepts. -/
def notBgStop (c : Char) : Bool := ¬ (c = '"' ∨ c = squote ∨ c = ')')

/-- One findall scan of the background regex `url\(["\']?([^"\')]+)`:
at each position try the literal `url(`, an optional quote, then a
non-empty capture; on failure advance one character. Fuel-structural. -/
def bgGo : Nat → List Char → List String
  | 0, _ => []
  | _ + 1, [] => []
  | fuel + 1, c :: rest =>
    let cs := c :: rest
    if listIsPre ['u', 'r', 'l', '('] cs then
      let a1 := cs.drop 4
      let a2 := match a1 with
        | q :: r => if q = '"' ∨ q = squote then r else a1
        | [] => a1
      let tok := a2.takeWhile notBgStop
      if tok.isEmpty then bgGo fuel rest
      else (⟨tok⟩ : String) :: bgGo fuel (a2.drop tok.length)
    else bgGo fuel rest

/-- `re.findall(r'url\(["\']?([^"\')]+)', style)`. -/
def findallBgUrls (s : String) : List String := bgGo s.data.length s.data

/-- The string `'` (one single quote). -/
def squoteStr : String := ⟨[squote]⟩

theorem bg_check1 :
    findallBgUrls ("background-image:url(" ++ squoteStr ++ "/d.jpg" ++ squoteStr ++ ")")
      = ["/d.jpg"] := by decide

theorem bg_check2 : findallBgUrls "x url(\"/e.png\"), url(f.gif)" = ["/e.png", "f.gif"] := by decide

/-- An `<img>` element as seen by BeautifulSoup: its attribute list
(first occurrence wins on duplicates, as in `html.parser`). -/
structure ImgElem where
  attrs : List (String × String)
deriving DecidableEq

/-- `img.get(name)` / `img[name]`. -/
def attrGet (e : ImgElem) (name : String) : Option String :=
  (e.attrs.find? (fun p => p.1 == name)).map (fun p => p.2)

/-- One rendered-DOM snapshot: the `<img>` elements of the page source and
the inline `style` strings of the elements matching
`[style*='background-image']`. -/
structure PageSnapshot where
  imgs : List ImgElem
  styles : List String
deriving DecidableEq

/-- `set.add`: sets are modelled as duplicate-free lists in insertion order. -/
def setAdd (s : List String) (x : String) : List String :=
  if x ∈ s then s else s ++ [x]

/-- `set.update` with a list of new elements. -/
def setAddMany (s : List String) (xs : List String) : List String := xs.foldl setAdd s

/-- The lazy-loading attributes scanned after `data-src` (source line 73). -/
def lazyAttrs : List String := ["data-original", "data-lazy-src", "data-url", "data-lazysrc"]

/-- The per-`<img>` part of `extract_images_from_current_state`: a truthy
`src`, the srcset tokens of a truthy `srcset`, then `data-src` and the
other lazy attributes whenever they are present (any value, even empty). -/
def processImg (acc : List String) (e : ImgElem) : List String :=
  let acc1 := match attrGet e "src" with
    | some s => if s ≠ "" then setAdd acc s else acc
    | none => acc
  let acc2 := match attrGet e "srcset" with
    | some s => if s ≠ "" then setAddMany acc1 (findallSrcset s) else acc1
    | none => acc1
  let acc3 := match attrGet e "data-src" with
    | some v => setAdd acc2 v
    | none => acc2
  lazyAttrs.foldl
    (fun a attr =>
      match attrGet e attr with
      | some v => setAdd a v
      | none => a) acc3

/-- `extract_images_from_current_state(driver)` over a snapshot. -/
def extractImagesFromCurrentState (snap : PageSnapshot) : List String :=
  let s := snap.imgs.foldl processImg []
  snap.styles.foldl (fun acc st => setAddMany acc (findallBgUrls st)) s

/-! ## The scroll harvester (`get_image_urls_from_page`) -/

/-- The page behaviour observed by the scroll loop: for each iteration
index, the snapshot extracted at the top of the body, the document height
and scroll offset and viewport height read after scrolling, and the
snapshot of the extra extraction pass performed on the stopping condition. -/
structure PageBeh where
  initialHeight : Int
  snap : Nat → PageSnapshot
  height : Nat → Int
  offset : Nat → Int
  inner : Nat → Int
  finalSnap : Nat → PageSnapshot

/-- `max_scroll_attempts` (source line 132). -/
def maxScrollAttempts : Nat := 5

/-- The `while scroll_attempts < max_scroll_attempts` loop, by recursion on
the remaining attempts; returns the accumulated set and the number of loop
iterations executed. -/
def scrollLoopGo (beh : PageBeh) : Nat → Nat → Int → List String → List String × Nat
  | 0, _, _, acc => (acc, 0)
  | rem + 1, i, lastHeight, acc =>
    let acc1 := setAddMany acc (extractImagesFromCurrentState (beh.snap i))
    let newHeight := beh.height i
    if newHeight = lastHeight ∧ beh.offset i + beh.inner i ≥ newHeight then
      (setAddMany acc1 (extractImagesFromCurrentState (beh.finalSnap i)), 1)
    else
      let p := scrollLoopGo beh rem (i + 1) newHeight acc1
      (p.1, p.2 + 1)

/-- The scroll-and-extract phase of `get_image_urls_from_page`: the
accumulated URL set and the number of iterations of the scroll loop. -/
def getImageUrlsFromPage (beh : PageBeh) : List String × Nat :=
  scrollLoopGo beh maxScrollAttempts 0 beh.initialHeight []

/-! ## Claim C6: the scroll loop is bounded -/

/-- The iteration count of the scroll loop never exceeds the remaining
attempt budget. -/
theorem scrollLoopGo_count_le (beh : PageBeh) :
    ∀ rem i lastHeight acc, (scrollLoopGo beh rem i lastHeight acc).2 ≤ rem := by
  intro rem
  induction rem with
  | zero => intro i lh acc; simp [scrollLoopGo]
  | succ n ih =>
    intro i lh acc
    simp only [scrollLoopGo]
    split
    · simp
    · simpa using Nat.succ_le_succ (ih (i + 1) _ _)

/-- A page behaviour whose document height strictly grows on every step, so
the stopping condition is never met. -/
def growingBeh : PageBeh :=
  ⟨1000, fun _ => ⟨[], []⟩, fun i => 1000 * ((i : Int) + 2), fun _ => 0, fun _ => 0,
   fun _ => ⟨[], []⟩⟩

/-- C6: for every page behaviour the harvest scroll loop executes at most
`max_scroll_attempts = 5` iterations; in particular on a page whose height
grows every step (stopping condition never met) it stops after exactly 5. -/
theorem c6_scroll_loop_bounded :
    maxScrollAttempts = 5 ∧
    (∀ beh : PageBeh, (getImageUrlsFromPage beh).2 ≤ maxScrollAttempts) ∧
    (getImageUrlsFromPage growingBeh).2 = 5 := by
  refine ⟨rfl, fun beh => scrollLoopGo_count_le beh maxScrollAttempts 0 beh.initialHeight [], ?_⟩
  decide

/-! ## Claim C8: srcset token extraction -/

/-- C8 counterexample: on `"a.png, b.png"` (candidates without
descriptors), the regex captures the comma inside the first token: the
extracted references are `a.png,` and `b.png`, not the URL portions. -/
theorem c8_counterexample :
    findallSrcset "a.png, b.png" = ["a.png,", "b.png"] ∧
    ¬ ("a.png" ∈ findallSrcset "a.png, b.png") := by decide

/-- `srcsetGo` on the empty string yields nothing, whatever the fuel. -/
theorem srcsetGo_nil (f : Nat) : srcsetGo f [] = [] := by cases f <;> rfl

/-- A maximal satisfying run: `takeWhile` over a satisfying block followed
by a failing character returns exactly the block. -/
theorem takeWhile_append_sat (p : Char → Bool) (u : List Char) (b : Char) (t : List Char)
    (hu : ∀ x ∈ u, p x = true) (hb : p b = false) :
    (u ++ b :: t).takeWhile p = u := by
  induction u with
  | nil => simp [List.takeWhile_cons, hb]
  | cons a as ih =>
    have ha : p a = true := hu a (by simp)
    simp only [List.cons_append, List.takeWhile_cons, ha, if_true]
    rw [ih (fun x hx => hu x (by simp [hx]))]

/-- An ASCII digit is not a regex whitespace character. -/
theorem digit_not_space {x : Char} (h : x.isDigit = true) : pySpace x = false := by
  have hx : ¬ (x = ' ' ∨ x = '\t' ∨ x = '\n' ∨ x = '\r' ∨ x.toNat = 11 ∨ x.toNat = 12) := by
    intro hc
    have h48 : 48 ≤ x.toNat ∧ x.toNat ≤ 57 := by
      simp [Char.isDigit] at h
      exact ⟨h.1, h.2⟩
    rcases hc with h1 | h1 | h1 | h1 | h1 | h1 <;> first
      | (subst h1; simp at h48)
      | (rw [h1] at h48; omega)
  simpa [pySpace] using hx

/-- Neither `w` nor `x` is an ASCII digit. -/
theorem wx_not_digit {c : Char} (h : c = 'w' ∨ c = 'x') : c.isDigit = false := by
  rcases h with h | h <;> subst h <;> decide

/-- `descrDrop` consumes exactly a digits-then-`w`/`x` descriptor. -/
theorem descrDrop_run (ds : List Char) (c : Char) (tail : List Char)
    (hne : ds ≠ []) (hdig : ∀ x ∈ ds, Char.isDigit x = true) (hc : c = 'w' ∨ c = 'x') :
    descrDrop (ds ++ c :: tail) = tail := by
  obtain ⟨d, ds', rfl⟩ : ∃ d ds', ds = d :: ds' := by
    cases ds with
    | nil => exact absurd rfl hne
    | cons d ds' => exact ⟨d, ds', rfl⟩
  simp only [descrDrop]
  have htw : ((d :: ds') ++ c :: tail).takeWhile Char.isDigit = d :: ds' :=
    takeWhile_append_sat Char.isDigit (d :: ds') c tail hdig (wx_not_digit hc)
  rw [htw]
  rw [if_neg (by simp)]
  rw [List.drop_left]
  show (if c = 'w' ∨ c = 'x' then tail else (d :: ds') ++ c :: tail) = tail
  rw [if_pos hc]

/-- One scan step of the srcset regex on a middle canonical candidate
`url<space>digits(w|x),<space>...`: the URL is captured, the descriptor
and the comma are consumed, and scanning resumes at the following space. -/
theorem srcsetGo_mid (u ds M : List Char) (c : Char) (f : Nat)
    (hu_ne : u ≠ []) (hu_ns : ∀ x ∈ u, pySpace x = false)
    (hds_ne : ds ≠ []) (hds_dig : ∀ x ∈ ds, Char.isDigit x = true)
    (hc : c = 'w' ∨ c = 'x') :
    srcsetGo (f + 1) (u ++ ' ' :: (ds ++ c :: ',' :: ' ' :: M))
      = (⟨u⟩ : String) :: srcsetGo f (' ' :: M) := by
  obtain ⟨a, u', rfl⟩ : ∃ a u', u = a :: u' := by
    cases u with
    | nil => exact absurd rfl hu_ne
    | cons a u' => exact ⟨a, u', rfl⟩
  have ha : pySpace a = false := hu_ns a (by simp)
  rw [List.cons_append]
  simp only [srcsetGo]
  rw [if_neg (by simp [ha])]
  have htok : (a :: (u' ++ ' ' :: (ds ++ c :: ',' :: ' ' :: M))).takeWhile
      (fun x => ¬ pySpace x) = a :: u' := by
    rw [← List.cons_append]
    exact takeWhile_append_sat _ (a :: u') ' ' _ (fun x hx => by simp [hu_ns x hx]) (by decide)
  rw [htok]
  have hdrop : (a :: (u' ++ ' ' :: (ds ++ c :: ',' :: ' ' :: M))).drop (a :: u').length
      = ' ' :: (ds ++ c :: ',' :: ' ' :: M) := by
    rw [← List.cons_append]
    exact List.drop_left _ _
  rw [hdrop]
  obtain ⟨d, ds', rfl⟩ : ∃ d ds', ds = d :: ds' := by
    cases ds with
    | nil => exact absurd rfl hds_ne
    | cons d ds' => exact ⟨d, ds', rfl⟩
  have hdw : (' ' :: ((d :: ds') ++ c :: ',' :: ' ' :: M)).dropWhile pySpace
      = (d :: ds') ++ c :: ',' :: ' ' :: M := by
    have h1 : pySpace ' ' = true := by decide
    have h2 : pySpace d = false := digit_not_space (hds_dig d (by simp))
    simp [List.dropWhile_cons, h1, h2]
  rw [hdw]
  rw [descrDrop_run (d :: ds') c _ (by simp) hds_dig hc]
  rfl

/-- One scan step of the srcset regex on a final canonical candidate
`url<space>digits(w|x)`: the URL is captured and the input is exhausted. -/
theorem srcsetGo_last (u ds : List Char) (c : Char) (f : Nat)
    (hu_ne : u ≠ []) (hu_ns : ∀ x ∈ u, pySpace x = false)
    (hds_ne : ds ≠ []) (hds_dig : ∀ x ∈ ds, Char.isDigit x = true)
    (hc : c = 'w' ∨ c = 'x') :
    srcsetGo (f + 1) (u ++ ' ' :: (ds ++ [c])) = [(⟨u⟩ : String)] := by
  obtain ⟨a, u', rfl⟩ : ∃ a u', u = a :: u' := by
    cases u with
    | nil => exact absurd rfl hu_ne
    | cons a u' => exact ⟨a, u', rfl⟩
  have ha : pySpace a = false := hu_ns a (by simp)
  rw [List.cons_append]
  simp only [srcsetGo]
  rw [if_neg (by simp [ha])]
  have htok : (a :: (u' ++ ' ' :: (ds ++ [c]))).takeWhile
      (fun x => ¬ pySpace x) = a :: u' := by
    rw [← List.cons_append]
    exact takeWhile_append_sat _ (a :: u') ' ' _ (fun x hx => by simp [hu_ns x hx]) (by decide)
  rw [htok]
  have hdrop : (a :: (u' ++ ' ' :: (ds ++ [c]))).drop (a :: u').length
      = ' ' :: (ds ++ [c]) := by
    rw [← List.cons_append]
    exact List.drop_left _ _
  rw [hdrop]
  obtain ⟨d, ds', rfl⟩ : ∃ d ds', ds = d :: ds' := by
    cases ds with
    | nil => exact absurd rfl hds_ne
    | cons d ds' => exact ⟨d, ds', rfl⟩
  have hdw : (' ' :: ((d :: ds') ++ [c])).dropWhile pySpace = (d :: ds') ++ [c] := by
    have h1 : pySpace ' ' = true := by decide
    have h2 : pySpace d = false := digit_not_space (hds_dig d (by simp))
    simp [List.dropWhile_cons, h1, h2]
  rw [hdw]
  rw [descrDrop_run (d :: ds') c [] (by simp) hds_dig hc]
  show (⟨a :: u'⟩ : String) :: srcsetGo f [] = [(⟨a :: u'⟩ : String)]
  rw [srcsetGo_nil f]

/-- The canonical candidate form: a nonempty whitespace-free URL, one
space, a nonempty digit string, `w` or `x`. -/
def goodCand (t : List Char × List Char × Char) : Prop :=
  t.1 ≠ [] ∧ (∀ x ∈ t.1, pySpace x = false) ∧ t.2.1 ≠ [] ∧
    (∀ x ∈ t.2.1, Char.isDigit x = true) ∧ (t.2.2 = 'w' ∨ t.2.2 = 'x')

instance (t : List Char × List Char × Char) : Decidable (goodCand t) := by
  unfold goodCand
  infer_instance

/-- Build a srcset attribute value from canonical candidates:
`u1 d1c1, u2 d2c2, ..., un dncn` (comma directly after each descriptor,
one space after each comma). -/
def mkSrcset : List (List Char × List Char × Char) → List Char
  | [] => []
  | [(u, ds, c)] => u ++ ' ' :: (ds ++ [c])
  | (u, ds, c) :: t :: rest => u ++ ' ' :: (ds ++ c :: ',' :: ' ' :: mkSrcset (t :: rest))

/-- For every canonical-form srcset value, extraction collects exactly the
URL portions in order, descriptors stripped. -/
theorem findallSrcset_canonical (cands : List (List Char × List Char × Char)) :
    ∀ fuel : Nat, (∀ t ∈ cands, goodCand t) → (mkSrcset cands).length ≤ fuel →
      srcsetGo fuel (mkSrcset cands) = cands.map (fun t => (⟨t.1⟩ : String)) := by
  induction cands with
  | nil => intro fuel _ _; exact srcsetGo_nil fuel
  | cons hd rest ih =>
    obtain ⟨u, ds, c⟩ := hd
    intro fuel hgood hfuel
    have hg := hgood (u, ds, c) (by simp)
    unfold goodCand at hg
    obtain ⟨hu_ne, hu_ns, hds_ne, hds_dig, hc⟩ := hg
    cases rest with
    | nil =>
      have hlen : (mkSrcset [(u, ds, c)]).length = u.length + ds.length + 2 := by
        simp [mkSrcset]
        omega
      cases fuel with
      | zero => rw [hlen] at hfuel; omega
      | succ f =>
        show srcsetGo (f + 1) (u ++ ' ' :: (ds ++ [c])) = [(⟨u⟩ : String)]
        exact srcsetGo_last u ds c f hu_ne hu_ns hds_ne hds_dig hc
    | cons t2 rs =>
      have hlen : (mkSrcset ((u, ds, c) :: t2 :: rs)).length
          = u.length + ds.length + 4 + (mkSrcset (t2 :: rs)).length := by
        simp [mkSrcset]
        omega
      cases fuel with
      | zero => rw [hlen] at hfuel; omega
      | succ f =>
        show srcsetGo (f + 1) (u ++ ' ' :: (ds ++ c :: ',' :: ' ' :: mkSrcset (t2 :: rs)))
            = (⟨u⟩ : String) :: (t2 :: rs).map (fun t => (⟨t.1⟩ : String))
        rw [srcsetGo_mid u ds (mkSrcset (t2 :: rs)) c f hu_ne hu_ns hds_ne hds_dig hc]
        congr 1
        cases f with
        | zero => rw [hlen] at hfuel; omega
        | succ f2 =>
          have hsp : pySpace ' ' = true := by decide
          simp only [srcsetGo, hsp, if_true]
          apply ih
          · intro t ht
            exact hgood t (by simp [ht])
          · rw [hlen] at hfuel
            omega

/-- The candidate list whose canonical srcset is the claimed example. -/
def exampleCands : List (List Char × List Char × Char) :=
  [(['/', 'b', '.', 'p', 'n', 'g'], ['1'], 'x'),
   (['/', 'c', '.', 'p', 'n', 'g'], ['2'], 'x')]

/-- C8 (amended): extraction captures maximal non-whitespace runs.  For
every srcset value in canonical candidate form — each candidate a nonempty
whitespace-free URL, one space, an integer width/density descriptor
(digits then `w` or `x`), the comma directly after the descriptor and one
space after each comma — extraction collects exactly the URL portions, in
order, with descriptors stripped; the claimed example
`/b.png 1x, /c.png 2x` is of this form and yields `/b.png` and `/c.png`.
Outside this form descriptor stripping can fail: a descriptor-less
candidate keeps its abutting comma inside the token, a space before the
comma yields a spurious comma token, and a non-integer density descriptor
such as `1.5x` is not stripped. -/
theorem c8_srcset_tokens :
    (∀ cands : List (List Char × List Char × Char), (∀ t ∈ cands, goodCand t) →
      findallSrcset ⟨mkSrcset cands⟩ = cands.map (fun t => (⟨t.1⟩ : String))) ∧
    findallSrcset "/b.png 1x, /c.png 2x" = ["/b.png", "/c.png"] ∧
    findallSrcset "x 1w , y 2w" = ["x", ",", "y"] ∧
    findallSrcset "p.jpg 1.5x, q.jpg 2x" = ["p.jpg", "1.5x,", "q.jpg"] := by
  refine ⟨?_, by decide, by decide, by decide⟩
  intro cands h
  exact findallSrcset_canonical cands (mkSrcset cands).length h (le_refl _)

/-- C8 witness: the canonical-form theorem at the concrete candidate list
of the claimed example, whose built srcset is the example string itself. -/
theorem c8_witness :
    (∀ t ∈ exampleCands, goodCand t) ∧
    findallSrcset ⟨mkSrcset exampleCands⟩
      = exampleCands.map (fun t => (⟨t.1⟩ : String)) ∧
    (⟨mkSrcset exampleCands⟩ : String) = "/b.png 1x, /c.png 2x" :=
  ⟨by decide, c8_srcset_tokens.1 exampleCands (by decide), by decide⟩

/-! ## Claim C2: the harvest accumulates raw references -/

/-- The inline style of the scenario page:
`background-image:url('/d.jpg')`. -/
def scenarioStyle : String :=
  "background-image:url(" ++ squoteStr ++ "/d.jpg" ++ squoteStr ++ ")"

/-- The scenario snapshot: `<img src="/a.png">`,
`<img srcset="/b.png 1x, /c.png 2x">` and a `background-image` div. -/
def scenarioSnap : PageSnapshot :=
  ⟨[⟨[("src", "/a.png")]⟩, ⟨[("srcset", "/b.png 1x, /c.png 2x")]⟩], [scenarioStyle]⟩

/-- The scenario page behaviour: a static page (height stable, viewport
already covering the document), so the loop stops on its first iteration. -/
def scenarioBeh : PageBeh :=
  ⟨1000, fun _ => scenarioSnap, fun _ => 1000, fun _ => 800, fun _ => 600,
   fun _ => ⟨[], []⟩⟩

/-- C2 counterexample: the harvest of the scenario page does NOT contain
the absolute URL `https://ex.com/a.png`; it contains the raw reference
`/a.png` — the harvester accumulates references without resolving them. -/
theorem c2_counterexample :
    ¬ ("https://ex.com/a.png" ∈ (getImageUrlsFromPage scenarioBeh).1) ∧
    "/a.png" ∈ (getImageUrlsFromPage scenarioBeh).1 := by decide

/-- C2 (amended): the harvester accumulates the extracted references
unresolved; for the scenario page the harvest is exactly
`{/a.png, /b.png, /c.png, /d.jpg}`, and resolving each against the base
`https://ex.com/` (as the fetcher later does) yields exactly the four
absolute URLs of the claim. -/
theorem c2_harvest_raw_then_resolve :
    (getImageUrlsFromPage scenarioBeh).1 = ["/a.png", "/b.png", "/c.png", "/d.jpg"] ∧
    ((getImageUrlsFromPage scenarioBeh).1).map (fun r => resolveUrl r "https://ex.com/") =
      ["https://ex.com/a.png", "https://ex.com/b.png", "https://ex.com/c.png",
       "https://ex.com/d.jpg"] := by decide

/-! ## Claim C10: empty-valued attributes -/

/-- An element added by `setAdd` is a member of the result. -/
theorem mem_setAdd (s : List String) (x : String) : x ∈ setAdd s x := by
  unfold setAdd
  split
  · assumption
  · simp

/-- `setAdd` preserves membership. -/
theorem mem_setAdd_of_mem {s : List String} {y : String} (x : String) (h : y ∈ s) :
    y ∈ setAdd s x := by
  unfold setAdd
  split
  · exact h
  · simp [h]

/-- The lazy-attribute fold of `processImg` preserves membership. -/
theorem lazyFold_mono (e : ImgElem) (l : List String) {acc : List String} {x : String}
    (h : x ∈ acc) :
    x ∈ l.foldl
      (fun a attr =>
        match attrGet e attr with
        | some v => setAdd a v
        | none => a) acc := by
  induction l generalizing acc with
  | nil => exact h
  | cons b tl ih =>
    simp only [List.foldl_cons]
    cases hb : attrGet e b with
    | none => exact ih h
    | some v => exact ih (mem_setAdd_of_mem v h)

/-- The lazy-attribute fold inserts the value of every present attribute. -/
theorem lazyFold_adds (e : ImgElem) (l : List String) (acc : List String) {a v : String}
    (ha : a ∈ l) (hv : attrGet e a = some v) :
    v ∈ l.foldl
      (fun ac attr =>
        match attrGet e attr with
        | some w => setAdd ac w
        | none => ac) acc := by
  induction l generalizing acc with
  | nil => cases ha
  | cons b tl ih =>
    rcases List.mem_cons.mp ha with hba | hmem
    · subst hba
      simp only [List.foldl_cons, hv]
      exact lazyFold_mono e tl (mem_setAdd acc v)
    · simp only [List.foldl_cons]
      cases hb : attrGet e b with
      | none => exact ih _ hmem
      | some w => exact ih _ hmem

/-- C10: extraction ignores an empty `src` or `srcset`, but the mere
presence of `data-src` or any attribute of the fixed lazy-loading set adds
its value to the extracted set even when the value is the empty string. -/
theorem c10_lazy_attr_presence :
    extractImagesFromCurrentState ⟨[⟨[("src", "")]⟩], []⟩ = [] ∧
    extractImagesFromCurrentState ⟨[⟨[("srcset", "")]⟩], []⟩ = [] ∧
    extractImagesFromCurrentState ⟨[⟨[("data-src", "")]⟩], []⟩ = [""] ∧
    ∀ (e : ImgElem) (a v : String), a ∈ "data-src" :: lazyAttrs → attrGet e a = some v →
      v ∈ extractImagesFromCurrentState ⟨[e], []⟩ := by
  refine ⟨by decide, by decide, by decide, ?_⟩
  intro e a v ha hv
  show v ∈ List.foldl (fun acc st => setAddMany acc (findallBgUrls st)) ([e].foldl processImg []) []
  simp only [List.foldl_nil, List.foldl_cons]
  unfold processImg
  rcases List.mem_cons.mp ha with hda | hmem
  · subst hda
    rw [hv]
    exact lazyFold_mono e lazyAttrs (mem_setAdd _ v)
  · cases h1 : attrGet e "src" <;> cases h2 : attrGet e "srcset" <;>
      cases h3 : attrGet e "data-src" <;>
      first
        | exact lazyFold_adds e lazyAttrs _ hmem hv

/-- C10 witness: an `<img data-original="">` contributes the empty-string
reference. -/
theorem c10_witness :
    ("data-original" ∈ "data-src" :: lazyAttrs ∧
      attrGet ⟨[("data-original", "")]⟩ "data-original" = some "") ∧
    "" ∈ extractImagesFromCurrentState ⟨[⟨[("data-original", "")]⟩], []⟩ :=
  ⟨⟨by decide, by decide⟩,
    c10_lazy_attr_presence.2.2.2 ⟨[("data-original", "")]⟩ "data-original" ""
      (by decide) (by decide)⟩

/-! ## Claim C3: classification precedence -/

/-- `listIsPre` decides list-prefix. -/
theorem listIsPre_iff (p l : List Char) : listIsPre p l = true ↔ p <+: l := by
  induction p generalizing l with
  | nil => simp [listIsPre]
  | cons a as ih =>
    cases l with
    | nil => simp [listIsPre]
    | cons b bs => simp [listIsPre, List.cons_prefix_cons, ih]

/-- `listHasSub` decides list-infix. -/
theorem listHasSub_iff (p l : List Char) : listHasSub p l = true ↔ p <:+: l := by
  induction l with
  | nil => cases p <;> simp [listHasSub, List.isEmpty]
  | cons c rest ih => simp [listHasSub, listIsPre_iff, ih, List.infix_cons_iff]

/-- A true `strEndsWith` gives a list suffix. -/
theorem strEndsWith_suffix {s p : String} (h : strEndsWith s p = true) : p.data <:+ s.data := by
  unfold strEndsWith at h
  exact List.reverse_prefix.mp ((listIsPre_iff _ _).mp h)

/-- A list infix gives a true `strContains`. -/
theorem strContains_of_infix {s p : String} (h : p.data <:+: s.data) : strContains s p = true :=
  (listHasSub_iff _ _).mpr h

/-- Taking from an infix stays an infix. -/
theorem infix_take {l m : List Char} (n : Nat) (h : l <:+: m) : l.take n <:+: m :=
  ((List.take_prefix n l).isInfix).trans h

/-- Dropping from an infix stays an infix. -/
theorem infix_drop {l m : List Char} (n : Nat) (h : l <:+: m) : l.drop n <:+: m :=
  ((List.drop_suffix n l).isInfix).trans h

/-- The `urlsplit` path is an infix of the URL string. -/
theorem urlsplitM_path_infix (u d : String) : (urlsplitM u d).path.data <:+: u.data := by
  simp only [urlsplitM]
  repeat' split
  all_goals dsimp only
  all_goals repeat
    first
      | exact List.infix_refl _
      | apply infix_take
      | apply infix_drop

/-- The `urlparse` path is an infix of the URL string. -/
theorem urlparseM_path_infix (u d : String) : (urlparseM u d).path.data <:+: u.data := by
  have hs := urlsplitM_path_infix u d
  simp only [urlparseM]
  split
  · show (splitparamsM (urlsplitM u d).path.data).1 <:+: u.data
    simp only [splitparamsM]
    repeat' split
    all_goals dsimp only
    all_goals first
      | exact hs
      | exact infix_take _ hs
  · exact hs

/-- A URL whose parsed path ends in `.svg` contains `svg` (lower-cased). -/
theorem svg_in_url_of_path {u : String}
    (h : strEndsWith (pyLower (urlparseM u "").path) ".svg" = true) :
    strContains (pyLower u) "svg" = true := by
  have h1 : (".svg" : String).data <:+ (pyLower (urlparseM u "").path).data :=
    strEndsWith_suffix h
  have h2 : ("svg" : String).data <:+ (".svg" : String).data := ⟨['.'], rfl⟩
  have h4 : (urlparseM u "").path.data <:+: u.data := urlparseM_path_infix u ""
  have h5 : (pyLower (urlparseM u "").path).data <:+: (pyLower u).data := by
    show ((urlparseM u "").path.data.map lowerChar) <:+: (u.data.map lowerChar)
    exact h4.map lowerChar
  exact strContains_of_infix (((h2.trans h1).isInfix).trans h5)

/-- A URL containing `svg` (lower-cased) is classified SVG whatever the
content type. -/
theorem isSvgImage_of_contains {u : String} (h : strContains (pyLower u) "svg" = true)
    (oct : Option String) : isSvgImage u oct = true := by
  unfold isSvgImage
  split
  · rfl
  · simp [h]

/-- C3: classification precedence.  (1) A URL beginning with `data:` is
skipped by the fetcher as data-embedded: no resolution, no network call,
outcome `dataSkip` (hence never the SVG outcome, even for
`data:image/svg+xml,...`).  (2) A non-data URL whose parsed path ends in
`.svg`, or which contains `svg` case-insensitively, is classified SVG
whatever content type is supplied.  (3) A supplied content-type containing
`svg` classifies any URL as SVG.  (4) A non-data URL classified SVG by its
shape is skipped by the fetcher with outcome `svgUrlSkip` and no network
call. -/
theorem c3_classification_precedence :
    (∀ (url baseUrl saveDir : String) (fs : String → Bool) (net : HttpEnv),
      strStartsWith url "data:" = true →
      downloadImage url baseUrl saveDir fs net = ⟨none, .dataSkip, [], []⟩ ∧
      resolveUrl url baseUrl = url) ∧
    (∀ (u : String) (oct : Option String),
      strEndsWith (pyLower (urlparseM u "").path) ".svg" = true ∨
        strContains (pyLower u) "svg" = true →
      isSvgImage u oct = true) ∧
    (∀ u ct : String, strContains (pyLower ct) "svg" = true →
      isSvgImage u (some ct) = true) ∧
    (∀ (url baseUrl saveDir : String) (fs : String → Bool) (net : HttpEnv),
      strStartsWith (resolveUrl url baseUrl) "data:" = false →
      isSvgImage (resolveUrl url baseUrl) none = true →
      downloadImage url baseUrl saveDir fs net = ⟨none, .svgUrlSkip, [], []⟩) := by
  refine ⟨?_, ?_, ?_, ?_⟩
  · intro url b d fs net h
    have hr : resolveUrl url b = url := by
      unfold resolveUrl
      rw [if_pos (Or.inr (Or.inr h))]
    refine ⟨?_, hr⟩
    simp [downloadImage, hr, h]
  · intro u oct h
    rcases h with h | h
    · exact isSvgImage_of_contains (svg_in_url_of_path h) oct
    · exact isSvgImage_of_contains h oct
  · intro u ct h
    have hne : ct ≠ "" := by
      intro he
      subst he
      exact absurd h (by decide)
    unfold isSvgImage
    split
    · rfl
    · split
      · rfl
      · simp [h, hne]
  · intro url b d fs net h1 h2
    simp [downloadImage, h1, h2]

/-- C3 witness: `data:image/svg+xml,x` is skipped as data (never SVG) with
no resolution and no network call; `https://x.com/a.svg?x=1` is classified
SVG; a content-type `image/svg+xml` classifies an extension-less URL. -/
theorem c3_witness :
    (downloadImage "data:image/svg+xml,x" "https://e.com/" "images" (fun _ => false)
        ⟨fun _ => none, fun _ => none⟩ = ⟨none, .dataSkip, [], []⟩ ∧
      resolveUrl "data:image/svg+xml,x" "https://e.com/" = "data:image/svg+xml,x") ∧
    isSvgImage "https://x.com/a.svg?x=1" none = true ∧
    isSvgImage "http://x.com/pic" (some "image/svg+xml") = true ∧
    downloadImage "https://x.com/a.svg?x=1" "https://x.com/" "images" (fun _ => false)
      ⟨fun _ => none, fun _ => none⟩ = ⟨none, .svgUrlSkip, [], []⟩ :=
  ⟨c3_classification_precedence.1 "data:image/svg+xml,x" "https://e.com/" "images"
      (fun _ => false) ⟨fun _ => none, fun _ => none⟩ (by decide),
   c3_classification_precedence.2.1 "https://x.com/a.svg?x=1" none (Or.inl (by decide)),
   c3_classification_precedence.2.2.1 "http://x.com/pic" "image/svg+xml" (by decide),
   c3_classification_precedence.2.2.2 "https://x.com/a.svg?x=1" "https://x.com/" "images"
      (fun _ => false) ⟨fun _ => none, fun _ => none⟩ (by decide) (by decide)⟩

/-! ## Claim C1: duplicate-on-disk skip -/

/-- A network environment whose HEAD probes succeed with a non-SVG
content-type and whose GETs raise. -/
def netProbeOk : HttpEnv := ⟨fun _ => some "image/jpeg", fun _ => none⟩

/-- A filesystem on which every path exists. -/
def fsAll : String → Bool := fun _ => true

/-- C1 counterexample: for a fetchable URL whose content-addressed file
already exists, the procedure does reach the duplicate-skip return, but
its network-call trace is non-empty — the HEAD probe (source line 209) is
issued before the existence check (line 227), so the claimed
"no network call at all" is false. -/
theorem c1_counterexample :
    (downloadImage "http://e.com/a.png" "http://e.com/" "images" fsAll netProbeOk).outcome
        = .dupOnDisk ∧
    (downloadImage "http://e.com/a.png" "http://e.com/" "images" fsAll netProbeOk).calls
        ≠ [] := by decide

/-- C1 (amended): for every URL that reaches the filename computation
(non-data, not SVG by shape, probe does not reclassify) whose
content-addressed file already exists, the procedure emits the
duplicate-skip outcome (`None`, nothing written) without performing the
full retrieval; the header probe, however, is still performed. -/
theorem c1_duplicate_skip_no_refetch (url baseUrl saveDir : String) (fs : String → Bool)
    (net : HttpEnv)
    (h1 : strStartsWith (resolveUrl url baseUrl) "data:" = false)
    (h2 : isSvgImage (resolveUrl url baseUrl) none = false)
    (h3 : probeSaysSvg net (resolveUrl url baseUrl) = false)
    (h4 : fs (savePath saveDir (resolveUrl url baseUrl)) = true) :
    downloadImage url baseUrl saveDir fs net =
      ⟨none, .dupOnDisk, [.head (resolveUrl url baseUrl)], []⟩ := by
  simp [downloadImage, h1, h2, h3, h4]

/-- C1 witness: the amended behaviour at a concrete URL, filesystem and
network. -/
theorem c1_witness :
    downloadImage "http://e.com/a.png" "http://e.com/" "images" fsAll netProbeOk =
      ⟨none, .dupOnDisk, [.head "http://e.com/a.png"], []⟩ :=
  c1_duplicate_skip_no_refetch "http://e.com/a.png" "http://e.com/" "images" fsAll netProbeOk
    (by decide) (by decide) (by decide) (by decide)

/-! ## Claim C4: idempotence across two runs -/

/-- Two successive runs of the per-URL procedure against the same base and
directory, the second starting from the filesystem left by the first. -/
def twoRuns (url baseUrl saveDir : String) (fs : String → Bool) (net : HttpEnv) :
    DLResult × DLResult :=
  let r1 := downloadImage url baseUrl saveDir fs net
  (r1, downloadImage url baseUrl saveDir (applyWrites fs r1.written) net)

/-- The number of successful full retrievals (GET calls whose response
exists) in a call trace. -/
def countGoodGets (net : HttpEnv) (cs : List NetCall) : Nat :=
  (cs.filter (fun c =>
    match c with
    | .get u => (net.getResp u).isSome
    | .head _ => false)).length

/-- A network environment whose HEAD probes fail and whose GETs succeed
with an SVG content-type. -/
def netSvgGet : HttpEnv := ⟨fun _ => none, fun _ => some ("image/svg+xml", [1])⟩

/-- A filesystem on which no path exists. -/
def fsNone : String → Bool := fun _ => false

/-- C4 counterexample: a URL with no SVG hint in its shape whose GET
response carries an SVG content-type is fully retrieved again on every
run — the body is discarded by the final check (source line 233) and
nothing is persisted, so two runs perform two successful full retrievals,
refuting "at most one". -/
theorem c4_counterexample :
    countGoodGets netSvgGet
      ((twoRuns "http://e.com/a" "http://e.com/" "images" fsNone netSvgGet).1.calls ++
        (twoRuns "http://e.com/a" "http://e.com/" "images" fsNone netSvgGet).2.calls) = 2 := by
  decide

/-- C4 (amended): for every URL whose successful GET response is not
reclassified as SVG by its content-type, running the per-URL procedure
twice performs at most one successful full retrieval, and whenever the
first run persisted the file the second run finds it on disk and skips. -/
theorem c4_at_most_one_persisted_fetch (url baseUrl saveDir : String) (fs : String → Bool)
    (net : HttpEnv)
    (h : ∀ ct body, net.getResp (resolveUrl url baseUrl) = some (ct, body) →
         isSvgImage (resolveUrl url baseUrl) (some ct) = false) :
    countGoodGets net ((twoRuns url baseUrl saveDir fs net).1.calls ++
        (twoRuns url baseUrl saveDir fs net).2.calls) ≤ 1 ∧
    ((twoRuns url baseUrl saveDir fs net).1.outcome = .saved →
      (twoRuns url baseUrl saveDir fs net).2.outcome = .dupOnDisk) := by
  by_cases h1 : strStartsWith (resolveUrl url baseUrl) "data:"
  · simp [twoRuns, downloadImage, h1, countGoodGets]
  by_cases h2 : isSvgImage (resolveUrl url baseUrl) none
  · simp [twoRuns, downloadImage, h1, h2, countGoodGets]
  by_cases h3 : probeSaysSvg net (resolveUrl url baseUrl)
  · simp [twoRuns, downloadImage, h1, h2, h3, countGoodGets]
  by_cases h4 : fs (savePath saveDir (resolveUrl url baseUrl))
  · simp [twoRuns, downloadImage, applyWrites, h1, h2, h3, h4, countGoodGets]
  cases hg : net.getResp (resolveUrl url baseUrl) with
  | none =>
    simp [twoRuns, downloadImage, applyWrites, h1, h2, h3, h4, hg, countGoodGets]
  | some pr =>
    have h5 : isSvgImage (resolveUrl url baseUrl) (some pr.1) = false := h pr.1 pr.2 (by
      rw [hg])
    simp [twoRuns, downloadImage, applyWrites, h1, h2, h3, h4, hg, h5, countGoodGets]

/-- A network environment whose HEAD probes fail and whose GETs succeed
with a PNG content-type. -/
def netGetOk : HttpEnv := ⟨fun _ => none, fun _ => some ("image/png", [7, 7])⟩

/-- C4 witness: the amended behaviour at a concrete URL (first run saves,
second run skips the file already on disk; one successful retrieval). -/
theorem c4_witness :
    countGoodGets netGetOk
        ((twoRuns "http://e.com/b.png" "http://e.com/" "images" fsNone netGetOk).1.calls ++
          (twoRuns "http://e.com/b.png" "http://e.com/" "images" fsNone netGetOk).2.calls) ≤ 1 ∧
    ((twoRuns "http://e.com/b.png" "http://e.com/" "images" fsNone netGetOk).1.outcome = .saved →
      (twoRuns "http://e.com/b.png" "http://e.com/" "images" fsNone netGetOk).2.outcome
        = .dupOnDisk) :=
  c4_at_most_one_persisted_fetch "http://e.com/b.png" "http://e.com/" "images" fsNone netGetOk
    (fun ct body hh => by
      injection hh with h2
      injection h2 with h3 h4
      rw [← h3]
      decide)

/-! ## Claim C5: per-URL failure isolation -/

/-- When the GET for a URL raises, the procedure returns `None` and writes
nothing (whatever earlier branch it may exit through). -/
theorem downloadImage_getNone (url baseUrl saveDir : String) (fs : String → Bool) (net : HttpEnv)
    (h : net.getResp (resolveUrl url baseUrl) = none) :
    (downloadImage url baseUrl saveDir fs net).written = [] ∧
    (downloadImage url baseUrl saveDir fs net).ret = none := by
  simp only [downloadImage]
  rw [h]
  refine ⟨?_, ?_⟩ <;> (repeat' split) <;> simp_all

/-- `fetchAll` returns one record per input URL. -/
theorem fetchAll_length (urls : List String) (baseUrl saveDir : String) :
    ∀ (fs : String → Bool) (net : HttpEnv),
      ((fetchAll urls baseUrl saveDir fs net).1).length = urls.length := by
  induction urls with
  | nil => intro fs net; rfl
  | cons u rest ih => intro fs net; simp [fetchAll, ih]

/-- `fetchAll` over an appended batch processes the two halves in
sequence, threading the filesystem. -/
theorem fetchAll_append (xs ys : List String) (baseUrl saveDir : String) :
    ∀ (fs : String → Bool) (net : HttpEnv),
      fetchAll (xs ++ ys) baseUrl saveDir fs net =
        ((fetchAll xs baseUrl saveDir fs net).1 ++
          (fetchAll ys baseUrl saveDir (fetchAll xs baseUrl saveDir fs net).2 net).1,
         (fetchAll ys baseUrl saveDir (fetchAll xs baseUrl saveDir fs net).2 net).2) := by
  induction xs with
  | nil => intro fs net; rfl
  | cons u rest ih => intro fs net; simp [fetchAll, ih]

/-- Writing nothing leaves the filesystem unchanged. -/
theorem applyWrites_nil (fs : String → Bool) : applyWrites fs [] = fs :=
  funext fun p => by simp [applyWrites]

/-- C5: if the retrieval of one URL `bad` raises, a batch containing it
still yields exactly one record per input, the record of `bad` is the
failure value `None`, and every other URL's record is exactly what it
would have been had `bad` not been in the batch. -/
theorem c5_failure_isolation (pre post : List String) (bad baseUrl saveDir : String)
    (fs : String → Bool) (net : HttpEnv)
    (h : net.getResp (resolveUrl bad baseUrl) = none) :
    ((fetchAll (pre ++ bad :: post) baseUrl saveDir fs net).1).length
        = pre.length + 1 + post.length ∧
    (downloadImage bad baseUrl saveDir (fetchAll pre baseUrl saveDir fs net).2 net).ret
        = none ∧
    (fetchAll (pre ++ bad :: post) baseUrl saveDir fs net).1 =
      ((fetchAll (pre ++ post) baseUrl saveDir fs net).1).take pre.length ++
        downloadImage bad baseUrl saveDir (fetchAll pre baseUrl saveDir fs net).2 net ::
        ((fetchAll (pre ++ post) baseUrl saveDir fs net).1).drop pre.length := by
  obtain ⟨hw, hr⟩ := downloadImage_getNone bad baseUrl saveDir
    (fetchAll pre baseUrl saveDir fs net).2 net h
  refine ⟨?_, hr, ?_⟩
  · rw [fetchAll_length]
    simp
    omega
  · rw [fetchAll_append pre (bad :: post) baseUrl saveDir fs net,
        fetchAll_append pre post baseUrl saveDir fs net]
    have hlen : ((fetchAll pre baseUrl saveDir fs net).1).length = pre.length :=
      fetchAll_length pre baseUrl saveDir fs net
    show (fetchAll pre baseUrl saveDir fs net).1 ++
        (fetchAll (bad :: post) baseUrl saveDir (fetchAll pre baseUrl saveDir fs net).2 net).1 = _
    rw [← hlen, List.take_left, List.drop_left]
    simp only [fetchAll]
    rw [hw, applyWrites_nil]

/-- C5 witness: a three-URL batch (a data URL, the failing URL, an SVG
URL) yields three records, a `None` for the failing URL, and the same
records for the other two as the batch without the failing URL. -/
theorem c5_witness :
    (⟨fun _ => none, fun _ => none⟩ : HttpEnv).getResp
        (resolveUrl "http://e.com/b" "http://e.com/") = none ∧
    (((fetchAll (["data:x"] ++ "http://e.com/b" :: ["http://e.com/svg/c.png"]) "http://e.com/"
        "images" fsNone ⟨fun _ => none, fun _ => none⟩).1).length = 1 + 1 + 1 ∧
    (downloadImage "http://e.com/b" "http://e.com/" "images"
        (fetchAll ["data:x"] "http://e.com/" "images" fsNone
          ⟨fun _ => none, fun _ => none⟩).2 ⟨fun _ => none, fun _ => none⟩).ret = none ∧
    (fetchAll (["data:x"] ++ "http://e.com/b" :: ["http://e.com/svg/c.png"]) "http://e.com/"
        "images" fsNone ⟨fun _ => none, fun _ => none⟩).1 =
      ((fetchAll (["data:x"] ++ ["http://e.com/svg/c.png"]) "http://e.com/" "images" fsNone
          ⟨fun _ => none, fun _ => none⟩).1).take 1 ++
        downloadImage "http://e.com/b" "http://e.com/" "images"
          (fetchAll ["data:x"] "http://e.com/" "images" fsNone
            ⟨fun _ => none, fun _ => none⟩).2 ⟨fun _ => none, fun _ => none⟩ ::
        ((fetchAll (["data:x"] ++ ["http://e.com/svg/c.png"]) "http://e.com/" "images" fsNone
            ⟨fun _ => none, fun _ => none⟩).1).drop 1) :=
  ⟨rfl, c5_failure_isolation ["data:x"] ["http://e.com/svg/c.png"] "http://e.com/b"
    "http://e.com/" "images" fsNone ⟨fun _ => none, fun _ => none⟩ rfl⟩

/-! ## Claim C9: `None` collapse and the second full run -/

/-- If every file the first run leaves on disk exists in `fs'`, the
procedure run against `fs'` returns `None` (its GET either repeats a
deterministic failure/discard or finds the file already present). -/
theorem downloadImage_second_ret_none (url baseUrl saveDir : String) (fs fs' : String → Bool)
    (net : HttpEnv)
    (h : ∀ p, applyWrites fs (downloadImage url baseUrl saveDir fs net).written p = true →
      fs' p = true) :
    (downloadImage url baseUrl saveDir fs' net).ret = none := by
  by_cases h1 : strStartsWith (resolveUrl url baseUrl) "data:"
  · simp [downloadImage, h1]
  by_cases h2 : isSvgImage (resolveUrl url baseUrl) none
  · simp [downloadImage, h1, h2]
  by_cases h3 : probeSaysSvg net (resolveUrl url baseUrl)
  · simp [downloadImage, h1, h2, h3]
  by_cases h5 : fs' (savePath saveDir (resolveUrl url baseUrl))
  · simp [downloadImage, h1, h2, h3, h5]
  cases hg : net.getResp (resolveUrl url baseUrl) with
  | none => simp [downloadImage, h1, h2, h3, h5, hg]
  | some pr =>
    obtain ⟨ct, body⟩ := pr
    by_cases h6 : isSvgImage (resolveUrl url baseUrl) (some ct)
    · simp [downloadImage, h1, h2, h3, h5, hg, h6]
    · exfalso
      apply h5
      by_cases h4 : fs (savePath saveDir (resolveUrl url baseUrl))
      · apply h
        have hw : (downloadImage url baseUrl saveDir fs net).written = [] := by
          simp [downloadImage, h1, h2, h3, h4]
        rw [hw, applyWrites_nil]
        exact h4
      · apply h
        have hw : (downloadImage url baseUrl saveDir fs net).written
            = [(savePath saveDir (resolveUrl url baseUrl), body)] := by
          simp [downloadImage, h1, h2, h3, h4, hg, h6]
        rw [hw]
        simp [applyWrites]

/-- The filesystem only grows along a batch. -/
theorem fetchAll_fs_mono (urls : List String) (baseUrl saveDir : String) :
    ∀ (fs : String → Bool) (net : HttpEnv) (p : String), fs p = true →
      (fetchAll urls baseUrl saveDir fs net).2 p = true := by
  induction urls with
  | nil => intro fs net p hp; exact hp
  | cons u rest ih =>
    intro fs net p hp
    simp only [fetchAll]
    exact ih _ net p (by simp [applyWrites, hp])

/-- A batch run against any filesystem containing everything a previous
run of the same batch left behind counts zero successful downloads. -/
theorem fetchAll_count_zero (urls : List String) (baseUrl saveDir : String) :
    ∀ (fsA fsB : String → Bool) (net : HttpEnv),
      (∀ p, (fetchAll urls baseUrl saveDir fsA net).2 p = true → fsB p = true) →
      countSuccess (fetchAll urls baseUrl saveDir fsB net).1 = 0 := by
  induction urls with
  | nil => intro fsA fsB net hsub; rfl
  | cons u rest ih =>
    intro fsA fsB net hsub
    have hmono : ∀ p,
        applyWrites fsA (downloadImage u baseUrl saveDir fsA net).written p = true →
        fsB p = true := by
      intro p hp
      exact hsub p (fetchAll_fs_mono rest baseUrl saveDir _ net p hp)
    have hret : (downloadImage u baseUrl saveDir fsB net).ret = none :=
      downloadImage_second_ret_none u baseUrl saveDir fsA fsB net hmono
    have htail : countSuccess (fetchAll rest baseUrl saveDir
        (applyWrites fsB (downloadImage u baseUrl saveDir fsB net).written) net).1 = 0 := by
      apply ih (applyWrites fsA (downloadImage u baseUrl saveDir fsA net).written)
      intro p hp
      have h1 : fsB p = true := hsub p (by simp only [fetchAll]; exact hp)
      simp [applyWrites, h1]
    simp only [fetchAll, countSuccess, List.filter_cons, hret]
    simpa [pyTruthy, countSuccess] using htail

/-- C9: (1) when the content-addressed file already exists the procedure
returns `None`, (2) every return except the persisting one is `None`
(data/SVG skips, duplicates and failures are indistinguishable to the
caller), so (3) `main`'s success counter over a second full run of the
same URL set against the filesystem left by the first run is zero even
though every retrievable image is already present. -/
theorem c9_none_collapse_and_second_run :
    (∀ (url baseUrl saveDir : String) (fs : String → Bool) (net : HttpEnv),
      fs (savePath saveDir (resolveUrl url baseUrl)) = true →
      (downloadImage url baseUrl saveDir fs net).ret = none) ∧
    (∀ (url baseUrl saveDir : String) (fs : String → Bool) (net : HttpEnv),
      (downloadImage url baseUrl saveDir fs net).ret = none ∨
      (downloadImage url baseUrl saveDir fs net).outcome = .saved) ∧
    (∀ (urls : List String) (baseUrl saveDir : String) (fs : String → Bool) (net : HttpEnv),
      countSuccess (fetchAll urls baseUrl saveDir
        (fetchAll urls baseUrl saveDir fs net).2 net).1 = 0) := by
  refine ⟨?_, ?_, ?_⟩
  · intro url b d fs net h
    simp only [downloadImage]
    repeat' split
    all_goals simp_all
  · intro url b d fs net
    simp only [downloadImage]
    repeat' split
    all_goals simp
  · intro urls b d fs net
    exact fetchAll_count_zero urls b d fs (fetchAll urls b d fs net).2 net (fun p hp => hp)

/-- C9 witness: a file already on disk yields `None`; a data URL yields a
non-`saved` `None`; re-running a one-URL batch that saved its image
counts zero successes. -/
theorem c9_witness :
    (fsAll (savePath "images" (resolveUrl "http://e.com/a.png" "http://e.com/")) = true ∧
      (downloadImage "http://e.com/a.png" "http://e.com/" "images" fsAll netProbeOk).ret
        = none) ∧
    ((downloadImage "data:x" "http://e.com/" "images" fsNone netProbeOk).ret = none ∨
      (downloadImage "data:x" "http://e.com/" "images" fsNone netProbeOk).outcome = .saved) ∧
    countSuccess (fetchAll ["http://e.com/w.png"] "http://e.com/" "images"
      (fetchAll ["http://e.com/w.png"] "http://e.com/" "images" fsNone netGetOk).2
      netGetOk).1 = 0 :=
  ⟨⟨rfl, c9_none_collapse_and_second_run.1 "http://e.com/a.png" "http://e.com/" "images"
      fsAll netProbeOk rfl⟩,
   c9_none_collapse_and_second_run.2.1 "data:x" "http://e.com/" "images" fsNone netProbeOk,
   c9_none_collapse_and_second_run.2.2 ["http://e.com/w.png"] "http://e.com/" "images"
      fsNone netGetOk⟩

/-! ## Claim C7: resolution determinism, pass-through, idempotence -/

/-- Every list is a Boolean prefix of itself followed by anything. -/
theorem listIsPre_self_append (p t : List Char) : listIsPre p (p ++ t) = true := by
  induction p with
  | nil => rfl
  | cons a as ih => simp [listIsPre, ih]

/-- `strStartsWith` holds whenever the data decomposes accordingly. -/
theorem startsWith_of_data {s p : String} (t : List Char) (h : s.data = p.data ++ t) :
    strStartsWith s p = true := by
  unfold strStartsWith
  rw [h]
  exact listIsPre_self_append _ _

/-- `urlparse` does not change the scheme of `urlsplit`. -/
theorem urlparseM_scheme (x d : String) : (urlparseM x d).scheme = (urlsplitM x d).scheme := by
  simp only [urlparseM]
  split <;> rfl

/-- `urlparse` does not change the netloc of `urlsplit`. -/
theorem urlparseM_netloc (x d : String) : (urlparseM x d).netloc = (urlsplitM x d).netloc := by
  simp only [urlparseM]
  split <;> rfl

/-- A URL written `http://...` parses with scheme `http`. -/
theorem urlsplitM_scheme_http (t : List Char) :
    (urlsplitM ⟨'h' :: 't' :: 't' :: 'p' :: ':' :: '/' :: '/' :: t⟩ "").scheme = "http" := rfl

/-- A URL written `https://...` parses with scheme `https`. -/
theorem urlsplitM_scheme_https (t : List Char) :
    (urlsplitM ⟨'h' :: 't' :: 't' :: 'p' :: 's' :: ':' :: '/' :: '/' :: t⟩ "").scheme
      = "https" := rfl

/-- With a nonempty scheme and netloc, `urlunsplit` produces
`scheme://netloc...` — in particular `scheme:` followed by `//`. -/
theorem urlunsplitM_starts (scheme netloc u q f : String) (hs : scheme ≠ "") (hn : netloc ≠ "") :
    listIsPre (scheme.data ++ [':', '/', '/']) (urlunsplitM scheme netloc u q f).data = true := by
  have key : ∀ tail : List Char,
      listIsPre (scheme.data ++ [':', '/', '/'])
        (scheme.data ++ ':' :: '/' :: '/' :: tail) = true := by
    intro tail
    have e : scheme.data ++ ':' :: '/' :: '/' :: tail
        = (scheme.data ++ [':', '/', '/']) ++ tail := by simp
    rw [e]
    exact listIsPre_self_append _ _
  simp only [urlunsplitM]
  rw [if_pos (Or.inl hn), if_pos hs]
  split
  · split
    all_goals
      first
        | exact key _
        | (simp only [List.append_assoc, List.cons_append]; exact key _)
  · split
    all_goals
      first
        | exact key _
        | (simp only [List.append_assoc, List.cons_append]; exact key _)

/-- With an `http`/`https` scheme and a nonempty netloc, `urlunparse`
produces an absolute `http(s)://` URL. -/
theorem urlunparseM_startsWith (p : UrlParts) (hs : p.scheme = "http" ∨ p.scheme = "https")
    (hn : p.netloc ≠ "") :
    strStartsWith (urlunparseM p) "http://" = true ∨
    strStartsWith (urlunparseM p) "https://" = true := by
  have hsne : p.scheme ≠ "" := by
    rcases hs with h | h <;> rw [h] <;> decide
  have key := urlunsplitM_starts p.scheme p.netloc
    (if p.params ≠ "" then p.path ++ ";" ++ p.params else p.path) p.query p.fragment hsne hn
  rcases hs with h | h
  · left
    show listIsPre ("http://" : String).data (urlunsplitM p.scheme p.netloc
      (if p.params ≠ "" then p.path ++ ";" ++ p.params else p.path) p.query p.fragment).data
      = true
    have e : ("http://" : String).data = p.scheme.data ++ [':', '/', '/'] := by
      rw [h]
      rfl
    rw [e]
    exact key
  · right
    show listIsPre ("https://" : String).data (urlunsplitM p.scheme p.netloc
      (if p.params ≠ "" then p.path ++ ";" ++ p.params else p.path) p.query p.fragment).data
      = true
    have e : ("https://" : String).data = p.scheme.data ++ [':', '/', '/'] := by
      rw [h]
      rfl
    rw [e]
    exact key

/-- An `http(s)://`-prefixed base is nonempty and parses with scheme
`http`/`https` matching its prefix. -/
theorem base_scheme_of_startsWith {b : String}
    (hb : strStartsWith b "http://" = true ∨ strStartsWith b "https://" = true) :
    b ≠ "" ∧ ((urlparseM b "").scheme = "http" ∨ (urlparseM b "").scheme = "https") := by
  rcases hb with hb | hb
  · obtain ⟨t, ht⟩ := (listIsPre_iff _ _).mp hb
    obtain ⟨cs⟩ := b
    have hcs : cs = 'h' :: 't' :: 't' :: 'p' :: ':' :: '/' :: '/' :: t := by
      have h2 : ("http://" : String).data ++ t = cs := ht
      simpa using h2.symm
    subst hcs
    constructor
    · intro h
      have h2 : 'h' :: 't' :: 't' :: 'p' :: ':' :: '/' :: '/' :: t = ([] : List Char) :=
        congrArg String.data h
      cases h2
    · exact Or.inl ((urlparseM_scheme _ "").trans (urlsplitM_scheme_http t))
  · obtain ⟨t, ht⟩ := (listIsPre_iff _ _).mp hb
    obtain ⟨cs⟩ := b
    have hcs : cs = 'h' :: 't' :: 't' :: 'p' :: 's' :: ':' :: '/' :: '/' :: t := by
      have h2 : ("https://" : String).data ++ t = cs := ht
      simpa using h2.symm
    subst hcs
    constructor
    · intro h
      have h2 : 'h' :: 't' :: 't' :: 'p' :: 's' :: ':' :: '/' :: '/' :: t = ([] : List Char) :=
        congrArg String.data h
      cases h2
    · exact Or.inr ((urlparseM_scheme _ "").trans (urlsplitM_scheme_https t))

/-- The key absoluteness property: joining any reference to an
`http(s)://`-prefixed base with nonempty authority yields either an
absolute `http(s)://` URL or the reference unchanged. -/
theorem urljoinM_absolute (b u : String)
    (hb : strStartsWith b "http://" = true ∨ strStartsWith b "https://" = true)
    (hn : (urlparseM b "").netloc ≠ "") :
    strStartsWith (urljoinM b u) "http://" = true ∨
    strStartsWith (urljoinM b u) "https://" = true ∨ urljoinM b u = u := by
  obtain ⟨hbne, hsch⟩ := base_scheme_of_startsWith hb
  by_cases hu : u = ""
  · subst hu
    simp only [urljoinM]
    rw [if_neg hbne]
    simp only [if_true]
    rcases hb with hb | hb
    · exact Or.inl hb
    · exact Or.inr (Or.inl hb)
  · simp only [urljoinM]
    rw [if_neg hbne, if_neg hu]
    by_cases hq : (urlparseM u (urlparseM b "").scheme).scheme ≠ (urlparseM b "").scheme ∨
        ¬ usesRelative.contains (urlparseM u (urlparseM b "").scheme).scheme
    · rw [if_pos hq]
      exact Or.inr (Or.inr rfl)
    · rw [if_neg hq]
      push_neg at hq
      obtain ⟨hq1, _⟩ := hq
      have husch : (urlparseM u (urlparseM b "").scheme).scheme = "http" ∨
          (urlparseM u (urlparseM b "").scheme).scheme = "https" := by
        rw [hq1]
        exact hsch
      have hcn : usesNetloc.contains (urlparseM u (urlparseM b "").scheme).scheme = true := by
        rcases husch with h | h <;> rw [h] <;> decide
      by_cases hnl : usesNetloc.contains (urlparseM u (urlparseM b "").scheme).scheme ∧
          (urlparseM u (urlparseM b "").scheme).netloc ≠ ""
      · rw [if_pos hnl]
        rcases urlunparseM_startsWith _ husch hnl.2 with h | h
        · exact Or.inl h
        · exact Or.inr (Or.inl h)
      · rw [if_neg hnl]
        simp only [hcn, eq_self_iff_true, if_true]
        split
        · refine (urlunparseM_startsWith _ ?_ ?_).elim Or.inl fun h => Or.inr (Or.inl h)
          · exact husch
          · exact hn
        · refine (urlunparseM_startsWith _ ?_ ?_).elim Or.inl fun h => Or.inr (Or.inl h)
          · exact husch
          · exact hn

/-- C7 counterexample: with the scheme-less base `d/e/` resolution is not
idempotent — `a` resolves to `d/e/a`, which resolves again to
`d/e/d/e/a`, a different string. -/
theorem c7_counterexample :
    resolveUrl "a" "d/e/" = "d/e/a" ∧
    resolveUrl (resolveUrl "a" "d/e/") "d/e/" = "d/e/d/e/a" ∧
    resolveUrl (resolveUrl "a" "d/e/") "d/e/" ≠ resolveUrl "a" "d/e/" := by decide

/-- C7 (amended): resolution is deterministic (equal inputs give equal
outputs) and absolute `http(s)://` references pass through unchanged, for
all inputs; resolving the result of a resolution again yields the same
string whenever the base URL is an absolute `http(s)://` URL with a
nonempty authority — as every page URL driven by the program is.  (For a
base without scheme and authority idempotence can fail, see the
counterexample.) -/
theorem c7_resolution_properties :
    (∀ r1 b1 r2 b2 : String, r1 = r2 → b1 = b2 → resolveUrl r1 b1 = resolveUrl r2 b2) ∧
    (∀ r b : String, strStartsWith r "http://" = true ∨ strStartsWith r "https://" = true →
      resolveUrl r b = r) ∧
    (∀ r b : String,
      strStartsWith b "http://" = true ∨ strStartsWith b "https://" = true →
      (urlparseM b "").netloc ≠ "" →
      resolveUrl (resolveUrl r b) b = resolveUrl r b) := by
  refine ⟨fun r1 b1 r2 b2 h1 h2 => by rw [h1, h2], ?_, ?_⟩
  · intro r b h
    unfold resolveUrl
    rcases h with h | h
    · rw [if_pos (Or.inl h)]
    · rw [if_pos (Or.inr (Or.inl h))]
  · intro r b hb hn
    by_cases hg : strStartsWith r "http://" = true ∨ strStartsWith r "https://" = true ∨
        strStartsWith r "data:" = true
    · have h1 : resolveUrl r b = r := by
        unfold resolveUrl
        rw [if_pos hg]
      rw [h1]
      exact h1
    · have h1 : resolveUrl r b = urljoinM b r := by
        unfold resolveUrl
        rw [if_neg hg]
      rw [h1]
      rcases urljoinM_absolute b r hb hn with h | h | h
      · unfold resolveUrl
        rw [if_pos (Or.inl h)]
      · unfold resolveUrl
        rw [if_pos (Or.inr (Or.inl h))]
      · rw [h]
        exact h1.trans h

/-- C7 witness: determinism, pass-through and idempotence at concrete
inputs (base `https://ex.com/`, a relative image reference). -/
theorem c7_witness :
    resolveUrl "x" "b" = resolveUrl "x" "b" ∧
    resolveUrl "http://a/b.png" "https://ex.com/" = "http://a/b.png" ∧
    ((strStartsWith "https://ex.com/" "http://" = true ∨
        strStartsWith "https://ex.com/" "https://" = true) ∧
      (urlparseM "https://ex.com/" "").netloc ≠ "" ∧
      resolveUrl (resolveUrl "img/i.png" "https://ex.com/") "https://ex.com/" =
        resolveUrl "img/i.png" "https://ex.com/") :=
  ⟨c7_resolution_properties.1 "x" "b" "x" "b" rfl rfl,
   c7_resolution_properties.2.1 "http://a/b.png" "https://ex.com/" (Or.inl (by decide)),
   ⟨Or.inr (by decide), by decide,
    c7_resolution_properties.2.2 "img/i.png" "https://ex.com/" (Or.inr (by decide))
      (by decide)⟩⟩
